import Mathlib

/-!
Verification development for the smart-transcription-router repository.

The repository has two Python source files:
- src/lambdas/transcription-router/index.py  (the routing Lambda)
- src/scripts/combine-session-transcripts.py (the combiner utility)

Strings are modelled as lists of characters; Python string primitives
(split, startswith, substring membership, replace, strip, whitespace split)
are given explicit executable definitions below with the same semantics.
Rational numbers stand in for the Python floats appearing in the code; all
timestamp arithmetic in the sources is additive so this is exact on the
inputs considered. Object storage is modelled per function as the snapshot
of reads and listings it performs, with writes as explicit state updates.
-/

namespace STR

/-- Character-list model of Python strings. -/
abbrev Str := List Char

/-- Python split on a single separator character, as in key.split of the
source line 340: every occurrence separates, empty pieces are kept, and the
empty string splits to one empty piece. -/
def splitOnChar (sep : Char) : Str → List Str
  | [] => [[]]
  | c :: rest =>
    if c == sep then [] :: splitOnChar sep rest
    else
      match splitOnChar sep rest with
      | [] => [[c]]
      | h :: t => (c :: h) :: t

/-- Python substring membership test, the in operator used at source line
339 of index.py. -/
def containsSub (pat : Str) : Str → Bool
  | [] => pat.isPrefixOf []
  | c :: rest => pat.isPrefixOf (c :: rest) || containsSub pat rest

/-- Scanner of the replace operation. The second argument counts matched
characters still to be consumed after an occurrence was replaced; when it
is zero and the pattern starts here, the replacement is emitted and the
rest of the match is skipped, giving the Python non-overlapping
left-to-right replacement. -/
def replGo (pat repl : Str) : Str → Nat → Str
  | [], _ => []
  | c :: rest, skip =>
    match skip with
    | n + 1 => replGo pat repl rest n
    | 0 =>
      if pat ≠ [] ∧ pat.isPrefixOf (c :: rest) = true then
        repl ++ replGo pat repl rest (pat.length - 1)
      else c :: replGo pat repl rest 0

/-- Python str.replace with every non-overlapping occurrence replaced left
to right, used at source line 344 of index.py. -/
def replaceAll (pat repl : Str) (s : Str) : Str :=
  replGo pat repl s 0

/-- Python str.strip with no arguments: drop whitespace from both ends. -/
def pyStrip (s : Str) : Str :=
  ((s.dropWhile Char.isWhitespace).reverse.dropWhile Char.isWhitespace).reverse

/-- Generalisation of splitOnChar to a predicate, used to model the Python
no-argument str.split below. -/
def splitOnP (p : Char → Bool) : Str → List Str
  | [] => [[]]
  | c :: rest =>
    if p c then [] :: splitOnP p rest
    else
      match splitOnP p rest with
      | [] => [[c]]
      | h :: t => (c :: h) :: t

/-- Python str.split with no arguments: split on whitespace runs and drop
the empty pieces. -/
def pySplitWs (s : Str) : List Str :=
  (splitOnP Char.isWhitespace s).filter (fun w => w ≠ [])

/-- Numeric value of a digit string, the int conversion applied to the
digits captured by the chunk-number pattern. -/
def digitsToNat (ds : Str) : Nat :=
  ds.foldl (fun a c => 10 * a + (c.toNat - 48)) 0

end STR

namespace Router

open STR

/-! ### Source path parsing (index.py lines 333 to 349) -/

/-- Embedding of index.py lines 339 to 344: derive user id, session id and
chunk name from the source object key. The source guards on the key
starting with users/ and containing /audio/sessions/, splits on the slash,
requires at least five pieces, takes piece one as user id, piece four as
session id, and the last piece with every occurrence of .webm removed as
the chunk name. Returns none exactly when the source falls back to the
generic output path. -/
def parseKey (s3_key : Str) : Option (Str × Str × Str) :=
  if "users/".data.isPrefixOf s3_key && containsSub "/audio/sessions/".data s3_key then
    let parts := splitOnChar '/' s3_key
    if 5 ≤ parts.length then
      some (parts.getD 1 [], parts.getD 4 [],
        replaceAll ".webm".data [] (parts.getLastD []))
    else none
  else none

/-- Embedding of index.py line 349: the canonical per-chunk output key
built from the parsed triple. -/
def transcriptKey (user_id session_id chunk_name : Str) : Str :=
  "users/".data ++ user_id ++ "/transcripts/".data ++ session_id
    ++ "-".data ++ chunk_name ++ ".json".data

/-- Modelled from the spec section 8: the documented canonical output path
users/userId/transcripts/sessionId-chunkName.json, written independently
for the round-trip comparison of claim C5. -/
def canonicalOutputPath (userId sessionId chunkName : Str) : Str :=
  "users/".data ++ userId ++ "/transcripts/".data ++ sessionId
    ++ "-".data ++ chunkName ++ ".json".data

/-- Shape of a source key users/u/audio/sessions/s/last, the input format
named by claim C5 with last standing for the chunk file name including its
extension. -/
def srcKey (u s last : Str) : Str :=
  "users/".data ++ (u ++ ("/audio/sessions/".data ++ (s ++ ("/".data ++ last))))

end Router

namespace Combiner

open STR

/-! ### Transcript data model (combine-session-transcripts.py lines 54 to
138; the same logic appears inline in index.py lines 160 to 233) -/

/-- One entry of the chunks array of a chunk transcript: an optional
timestamp array and a text. The source checks that the timestamp field is
present and has length two before using it. -/
structure SubChunk where
  timestamp : Option (List ℚ)
  text : Str
deriving DecidableEq

/-- A parsed chunk transcript object. The chunks field is optional because
the source skips transcripts whose dictionary lacks the chunks key; text
absence is modelled as the empty string, matching the get call with an
empty default. -/
structure Transcript where
  text : Str
  chunks : Option (List SubChunk)
  device : Option Str
  model : Option Str
  timestamp : Option Str
deriving DecidableEq

/-- An entry of the combined chunks array: timestamp pair shifted to the
session timeline, plus the text. -/
structure OutChunk where
  timestamp : List ℚ
  text : Str
deriving DecidableEq

/-- A word object of the paragraph view, the dictionary with keys w and t
built at script lines 108 to 111. -/
structure WordObj where
  w : Str
  t : ℚ
deriving DecidableEq

/-- A paragraph of the combined transcript, script lines 114 to 120. The
end field of the source dictionary is named endT here because end is a
reserved word. -/
structure Para where
  speaker : Str
  start : ℚ
  endT : ℚ
  text : Str
  words : List WordObj
deriving DecidableEq

/-- The metadata dictionary of the combined transcript. -/
structure CombinedMetadata where
  total_chunks : Nat
  duration : ℚ
  wordCount : Nat
deriving DecidableEq

/-- The combined session transcript, script lines 60 to 136. -/
structure Combined where
  text : Str
  chunks : List OutChunk
  paragraphs : List Para
  metadata : CombinedMetadata
  device : Str
  model : Str
  timestamp : Str
deriving DecidableEq

/-- Paragraph for one sub-chunk, script lines 98 to 120: split the text on
whitespace, and when there is at least one word give word j the time
start + j * (duration / wordCount). -/
def mkPara (start endT : ℚ) (text : Str) : Para :=
  let words := pySplitWs text
  let chunk_duration := endT - start
  let word_objects :=
    if 0 < words.length then
      let time_per_word := chunk_duration / (words.length : ℚ)
      words.enum.map (fun jw => ⟨jw.2, start + (jw.1 : ℚ) * time_per_word⟩)
    else []
  ⟨"Speaker".data, start, endT, text, word_objects⟩

/-- Offset advance for one transcript, script lines 122 to 127: five
seconds by default, replaced by the end timestamp of the last sub-chunk
when the chunks array is nonempty and that entry has a length-two
timestamp. Only called for transcripts whose chunks key is present. -/
def chunk_advance (subs : List SubChunk) : ℚ :=
  match subs.getLast? with
  | some last =>
    match last.timestamp with
    | some [_, b] => b
    | _ => 5
  | none => 5

/-- Accumulator of the combination loop: combined text so far, combined
chunk and paragraph lists so far, and the running time offset. -/
structure CombineAcc where
  text : Str
  chunks : List OutChunk
  paragraphs : List Para
  offset : ℚ
deriving DecidableEq

/-- One iteration of the loop at script lines 74 to 129 over a single
chunk transcript. Transcripts without a chunks key are skipped entirely,
including the offset advance. -/
def processTranscript (acc : CombineAcc) (t : Transcript) : CombineAcc :=
  match t.chunks with
  | none => acc
  | some subs =>
    let chunk_text := pyStrip t.text
    let text2 :=
      if chunk_text ≠ [] then
        if acc.text ≠ [] then acc.text ++ ' ' :: chunk_text else chunk_text
      else acc.text
    let pairs := subs.filterMap (fun sub =>
      match sub.timestamp with
      | some [a, b] => some (a, b, sub.text)
      | _ => none)
    let newChunks := pairs.map (fun abt =>
      OutChunk.mk [acc.offset + abt.1, acc.offset + abt.2.1] abt.2.2)
    let newParas := pairs.map (fun abt =>
      mkPara (acc.offset + abt.1) (acc.offset + abt.2.1) abt.2.2)
    ⟨text2, acc.chunks ++ newChunks, acc.paragraphs ++ newParas,
      acc.offset + chunk_advance subs⟩

/-- Embedding of combine_transcripts, script lines 54 to 138. The empty
input returns none, modelling the empty-dictionary return of the source.
Device and model come from the first transcript, timestamp from the last,
duration is the final offset, wordCount the whitespace-split length of the
combined text. -/
def combine_transcripts (chunk_transcripts : List Transcript) : Option Combined :=
  match chunk_transcripts with
  | [] => none
  | first :: _ =>
    let acc := chunk_transcripts.foldl processTranscript ⟨[], [], [], 0⟩
    some
      { text := acc.text
        chunks := acc.chunks
        paragraphs := acc.paragraphs
        metadata := ⟨chunk_transcripts.length, acc.offset, (pySplitWs acc.text).length⟩
        device := first.device.getD "unknown".data
        model := first.model.getD "unknown".data
        timestamp := (chunk_transcripts.getLastD first).timestamp.getD [] }

end Combiner

namespace Combiner

open STR

/-! ### Chunk transcript discovery (combine-session-transcripts.py lines
13 to 42; the same logic appears inline in index.py lines 110 to 137) -/

/-- Embedding of the regular-expression search for chunk-digits.json at
the end of a key, script line 30. The search succeeds exactly when the key
ends with chunk- followed by a nonempty digit run followed by .json, and
the captured number is the integer value of that digit run. The digit run
is maximal automatically: the character before it is the dash of chunk-. -/
def matchChunkNum (key : Str) : Option Nat :=
  if ".json".data.isSuffixOf key then
    let stem := key.take (key.length - 5)
    let ds := (stem.reverse.takeWhile Char.isDigit).reverse
    let pre := stem.take (stem.length - ds.length)
    if ds ≠ [] ∧ "chunk-".data.isSuffixOf pre then some (digitsToNat ds)
    else none
  else none

/-- A discovered chunk transcript file: object key and the chunk number
captured from it, script lines 33 to 36. -/
structure ChunkFile where
  key : Str
  chunk_number : Nat
deriving DecidableEq

/-- Comparison used by the sort at script line 41: by chunk number. -/
def chunkLE (a b : ChunkFile) : Prop := a.chunk_number ≤ b.chunk_number

instance : DecidableRel chunkLE := fun a b => Nat.decLe a.chunk_number b.chunk_number

instance : IsTotal ChunkFile chunkLE := ⟨fun a b => Nat.le_total a.chunk_number b.chunk_number⟩

instance : IsTrans ChunkFile chunkLE := ⟨fun _ _ _ => Nat.le_trans⟩

/-- Embedding of find_chunk_transcripts, script lines 13 to 42: collect
the keys matching the chunk pattern from the listings of the two prefixes
in order, then sort stably by chunk number. The Python list sort is
stable, so the stable insertion sort gives the identical result. -/
def find_chunk_transcripts (listing1 listing2 : List Str) : List ChunkFile :=
  let files :=
    listing1.filterMap (fun k => (matchChunkNum k).map (ChunkFile.mk k))
      ++ listing2.filterMap (fun k => (matchChunkNum k).map (ChunkFile.mk k))
  List.insertionSort chunkLE files

end Combiner

namespace Router

open STR Combiner

/-! ### Session completion detection (index.py lines 59 to 250) -/

/-- Snapshot of the object-store state touched by the completion check of
one session. The metaChunkCount field is the chunkCount value read from
the session metadata object, none when that object is absent; a metadata
object without the field reads as zero through the get default, hence is
some zero here. The two listing fields hold the objects under the
session-chunk prefixes of the transcripts and transcriptions directories,
as key and parsed body. The sessionTranscript field is the object at the
session-level key. -/
structure SessStore where
  metaChunkCount : Option Nat
  transcriptsListing : List (Str × Transcript)
  transcriptionsListing : List (Str × Transcript)
  sessionTranscript : Option Combined
deriving DecidableEq

/-- Embedding of the put at index.py lines 238 to 243: a plain put_object,
which succeeds unconditionally and overwrites any object already at the
session key. The returned flag is the success of the write. -/
def put_session_transcript (st : SessStore) (combined : Combined) : Bool × SessStore :=
  (true, { st with sessionTranscript := some combined })

/-- Embedding of trigger_session_combination, index.py lines 104 to 250:
list both chunk prefixes, keep the keys matching the chunk pattern, sort
by chunk number, download the bodies, combine, and write the result to the
session key. Returns false when no chunk file or no body was found. The
download of a discovered key is its lookup in the listings; the source
skips keys whose download fails. -/
def trigger_session_combination (st : SessStore) : Bool × SessStore :=
  let chunk_files := find_chunk_transcripts
    (st.transcriptsListing.map (fun kv => kv.1))
    (st.transcriptionsListing.map (fun kv => kv.1))
  if chunk_files = [] then (false, st)
  else
    let assoc := st.transcriptsListing ++ st.transcriptionsListing
    let chunk_transcripts := chunk_files.filterMap (fun cf => assoc.lookup cf.key)
    if chunk_transcripts = [] then (false, st)
    else
      match combine_transcripts chunk_transcripts with
      | some combined => put_session_transcript st combined
      | none => (false, st)

/-- Embedding of check_session_completion, index.py lines 59 to 102: read
the expected chunk count from the metadata, return false when metadata is
absent or the count is zero; count the per-chunk transcripts under the
transcripts prefix; when the count reaches the expected count, return
false if the session transcript already exists and otherwise combine. -/
def check_session_completion (st : SessStore) : Bool × SessStore :=
  match st.metaChunkCount with
  | none => (false, st)
  | some expected_chunks =>
    if expected_chunks = 0 then (false, st)
    else
      let existing_transcripts := st.transcriptsListing.length
      if expected_chunks ≤ existing_transcripts then
        match st.sessionTranscript with
        | some _ => (false, st)
        | none => trigger_session_combination st
      else (false, st)

end Router

namespace Router

open STR Combiner

/-! ### Retry with exponential backoff (index.py lines 252 to 291) -/

instance {E T : Type} [DecidableEq E] [DecidableEq T] : DecidableEq (Except E T) :=
  fun x y =>
    match x, y with
    | .ok a, .ok b =>
      if h : a = b then isTrue (by rw [h]) else isFalse (by simp [h])
    | .error a, .error b =>
      if h : a = b then isTrue (by rw [h]) else isFalse (by simp [h])
    | .ok _, .error _ => isFalse (by simp)
    | .error _, .ok _ => isFalse (by simp)

/-- Observable trace of one run of the retry loop: how many times the
wrapped operation was invoked, the delays slept between attempts in order,
and the final outcome. -/
structure RetryTrace (E T : Type) where
  invocations : Nat
  delays : List ℚ
  outcome : Except E T
deriving DecidableEq

/-- One loop of retry_with_exponential_backoff starting at a given attempt
index with a given number of attempts remaining after it. The source
iterates attempt over the range up to max_retries: a failure on the last
attempt raises the observed error with no further delay, a failure earlier
sleeps min of base_delay times two to the attempt and max_delay, scaled by
one half plus one half of the random sample when jitter is on, then
continues. The function argument gives the outcome of each invocation by
attempt index, covering both a returned failure and a raised exception,
which the source treats alike; the u argument is the stream of
random.random samples. -/
def retryFrom (f : Nat → Except E T) (base_delay max_delay : ℚ) (jitter : Bool)
    (u : Nat → ℚ) : Nat → Nat → RetryTrace E T
  | attempt, 0 =>
    match f attempt with
    | .ok t => ⟨1, [], .ok t⟩
    | .error e => ⟨1, [], .error e⟩
  | attempt, remaining + 1 =>
    match f attempt with
    | .ok t => ⟨1, [], .ok t⟩
    | .error _ =>
      let delay0 := min (base_delay * 2 ^ attempt) max_delay
      let delay := if jitter then delay0 * (1/2 + u attempt * (1/2)) else delay0
      let rest := retryFrom f base_delay max_delay jitter u (attempt + 1) remaining
      ⟨rest.invocations + 1, delay :: rest.delays, rest.outcome⟩

/-- Embedding of retry_with_exponential_backoff, index.py lines 252 to
291: run the loop from attempt zero with max_retries attempts remaining
after it, so max_retries + 1 attempts in total. -/
def retry_with_exponential_backoff (f : Nat → Except E T) (max_retries : Nat)
    (base_delay max_delay : ℚ) (jitter : Bool) (u : Nat → ℚ) : RetryTrace E T :=
  retryFrom f base_delay max_delay jitter u 0 max_retries

/-! ### Request routing (index.py lines 293 to 506) -/

/-- The s3Location object of the cognito event format, index.py lines 326
to 328. -/
structure S3Location where
  bucket : Option Str
  key : Option Str
deriving DecidableEq

/-- The incoming request payload fields the router reads. Option models a
missing key, and force_batch holds the get with a false default. -/
structure EventData where
  s3_bucket : Option Str
  s3_key : Option Str
  s3Location : Option S3Location
  event_type : Option Str
  force_batch : Bool
deriving DecidableEq

/-- Bucket and key extraction of index.py lines 321 to 328: take s3_bucket
and s3_key, and when s3_bucket is missing and s3Location is present take
both from s3Location instead. -/
def extract_s3 (e : EventData) : Option Str × Option Str :=
  match e.s3_bucket, e.s3Location with
  | none, some loc => (loc.bucket, loc.key)
  | b, _ => (b, e.s3_key)

/-- Normalisation of index.py lines 431 to 436 inside send_to_sqs: when the
payload has an s3Location and no s3_bucket, copy bucket and key out of the
location into top-level fields. -/
def normalize_event (e : EventData) : EventData :=
  match e.s3_bucket, e.s3Location with
  | none, some loc => { e with s3_bucket := loc.bucket, s3_key := loc.key }
  | _, _ => e

/-- The queue message body built at index.py lines 439 to 443: the
normalised payload plus the queued_at timestamp and the batch processing
type. -/
structure MessageBody where
  data : EventData
  queued_at : Str
  processing_type : Str
deriving DecidableEq

/-- Routing method reported in the response body. -/
inductive Method
  | skipped
  | directWithRetry
  | sqs
deriving DecidableEq

/-- Result of one routing run: the reported method, the number of direct
transcription calls made, the queue message sent if any with its event
type attribute, and the resulting session-store state. -/
structure RouteResult where
  method : Method
  directCalls : Nat
  queuedMessage : Option MessageBody
  eventTypeAttr : Option Str
  sess : SessStore
deriving DecidableEq

/-- Outcome of the head_object existence probe at index.py line 353:
the object is found, or the probe raises NoSuchKey, or it raises some
other storage error. -/
inductive HeadResult
  | found
  | noSuchKey
  | otherError
deriving DecidableEq

/-- External collaborators of one routing run: the outcome of each direct
transcription attempt by attempt index (index.py lines 293 to 316), the
stream of random.random samples for the jitter, and the current timestamp
string. -/
structure World (E T : Type) where
  fastapi : Nat → Except E T
  rand : Nat → ℚ
  now : Str

/-- Embedding of send_to_sqs, index.py lines 427 to 455: normalise the
payload, wrap it with queued_at and processing_type batch, and send with
the event_type attribute taken from the original payload with the
audio_upload default. -/
def send_to_sqs (now : Str) (sess : SessStore) (event_data : EventData) : RouteResult :=
  { method := .sqs
    directCalls := 0
    queuedMessage := some ⟨normalize_event event_data, now, "batch".data⟩
    eventTypeAttr := some (event_data.event_type.getD "audio_upload".data)
    sess := sess }

/-- Embedding of send_to_fastapi, index.py lines 318 to 425. Extraction of
bucket and key, raising on absence; path parsing; the guard at line 347
is the Python truthiness test of user id, session id and chunk name, so
it also fails when any derived component is the empty string, in which
case the source takes the fallback branch with no idempotency probe.
Under the guard, the head_object probe at the canonical output key
returns the skipped outcome when the object is found and proceeds both
when it is absent and when the probe fails with another error; then the
direct call runs under the retry executor with three retries, base delay
one, max delay eight and default jitter; on success the completion check
runs under the truthiness test of user id and session id alone, line
401, its failure or success never altering the response; on exhaustion
the fallback enqueues the original payload. The headView argument is the
store snapshot answering the probe. -/
def send_to_fastapi (w : World E T) (sess : SessStore) (headView : Str → HeadResult)
    (event_data : EventData) : Except Str (RouteResult) :=
  match extract_s3 event_data with
  | (some _, some s3_key) =>
    let parsed := parseKey s3_key
    let head := match parsed with
      | some (u, s, c) =>
        if u ≠ [] ∧ s ≠ [] ∧ c ≠ [] then headView (transcriptKey u s c)
        else HeadResult.noSuchKey
      | none => HeadResult.noSuchKey
    match head with
    | .found => .ok ⟨.skipped, 0, none, none, sess⟩
    | _ =>
      let tr := retry_with_exponential_backoff w.fastapi 3 1 8 true w.rand
      match tr.outcome with
      | .ok _ =>
        let sess2 := match parsed with
          | some (u, s, _) =>
            if u ≠ [] ∧ s ≠ [] then (check_session_completion sess).2 else sess
          | none => sess
        .ok ⟨.directWithRetry, tr.invocations, none, none, sess2⟩
      | .error _ =>
        let r := send_to_sqs w.now sess event_data
        .ok ⟨r.method, tr.invocations, r.queuedMessage, r.eventTypeAttr, r.sess⟩
  | _ => .error "Missing S3 bucket or key in event data".data

/-- Embedding of check_server_health, index.py lines 45 to 57: false for a
missing url, else the health answer of the endpoint within the timeout,
supplied by the external health predicate. -/
def check_server_health (health : Str → Bool) : Option Str → Bool
  | none => false
  | some url => health url

/-- The Lambda event, either wrapping the payload in a detail field or
carrying it directly, index.py lines 479 to 482. -/
inductive LambdaEvent
  | withDetail (d : EventData)
  | plain (d : EventData)
deriving DecidableEq

/-- Payload selection of index.py lines 479 to 482. -/
def eventData : LambdaEvent → EventData
  | .withDetail d => d
  | .plain d => d

/-- Response of the handler: a routing result, or the catch-all error
response with status 500. -/
inductive HandlerOutcome
  | routed (r : RouteResult)
  | serverError (msg : Str)
deriving DecidableEq

/-- Embedding of lambda_handler, index.py lines 470 to 506: unwrap the
payload, read force_batch; unless forced, discover a server and health
check it, and use the direct path when both succeed; otherwise enqueue.
The discovered argument is the result of get_fastapi_server_url and
health the external health predicate. -/
def lambda_handler (w : World E T) (discovered : Option Str) (health : Str → Bool)
    (sess : SessStore) (headView : Str → HeadResult) (event : LambdaEvent) :
    HandlerOutcome :=
  let event_data := eventData event
  if event_data.force_batch then .routed (send_to_sqs w.now sess event_data)
  else
    if discovered.isSome && check_server_health health discovered then
      match send_to_fastapi w sess headView event_data with
      | .ok r => .routed r
      | .error m => .serverError m
    else .routed (send_to_sqs w.now sess event_data)

end Router

/-! ### Helper lemmas for the string model -/

namespace STR

theorem isPrefixOf_append_self : ∀ (l r : Str), l.isPrefixOf (l ++ r) = true
  | [], _ => by simp [List.isPrefixOf]
  | c :: l, r => by
    simp only [List.cons_append, List.isPrefixOf, beq_self_eq_true, Bool.true_and]
    exact isPrefixOf_append_self l r

theorem containsSub_of_isPrefixOf {pat s : Str} (h : pat.isPrefixOf s = true) :
    containsSub pat s = true := by
  cases s with
  | nil => simpa [containsSub] using h
  | cons c rest => simp [containsSub, h]

theorem containsSub_middle : ∀ (a pat b : Str), containsSub pat (a ++ (pat ++ b)) = true
  | [], pat, b => containsSub_of_isPrefixOf (isPrefixOf_append_self pat b)
  | c :: a, pat, b => by
    simp only [List.cons_append, containsSub, Bool.or_eq_true]
    exact Or.inr (containsSub_middle a pat b)

theorem splitOnChar_append_cons (sep : Char) :
    ∀ (xs ys : Str), sep ∉ xs →
      splitOnChar sep (xs ++ sep :: ys) = xs :: splitOnChar sep ys
  | [], ys, _ => by simp [splitOnChar]
  | c :: xs, ys, h => by
    have hne : (c == sep) = false := by
      simp only [beq_eq_false_iff_ne, ne_eq]
      intro e
      exact h (e ▸ List.mem_cons_self c xs)
    have h2 : sep ∉ xs := fun hm => h (List.mem_cons_of_mem c hm)
    simp only [List.cons_append, splitOnChar, hne, Bool.false_eq_true, if_false,
      List.append_eq]
    rw [splitOnChar_append_cons sep xs ys h2]

theorem splitOnChar_no_sep (sep : Char) :
    ∀ (xs : Str), sep ∉ xs → splitOnChar sep xs = [xs]
  | [], _ => rfl
  | c :: xs, h => by
    have hne : (c == sep) = false := by
      simp only [beq_eq_false_iff_ne, ne_eq]
      intro e
      exact h (e ▸ List.mem_cons_self c xs)
    have h2 : sep ∉ xs := fun hm => h (List.mem_cons_of_mem c hm)
    simp only [splitOnChar, hne, Bool.false_eq_true, if_false]
    rw [splitOnChar_no_sep sep xs h2]

theorem replGo_skip_all (pat repl : Str) :
    ∀ (xs : Str) (n : Nat), xs.length ≤ n → replGo pat repl xs n = []
  | [], _, _ => rfl
  | x :: xs, n, h => by
    match n, h with
    | m + 1, h =>
      simp only [replGo]
      exact replGo_skip_all pat repl xs m (by simpa using h)

theorem replaceAll_no_overlap (pat : Str) (hp : pat ≠ []) :
    ∀ (c : Str),
      (∀ i, i < c.length → pat.isPrefixOf ((c ++ pat).drop i) = false) →
      replaceAll pat [] (c ++ pat) = c
  | [], _ => by
    match pat, hp with
    | p :: ps, _ =>
      have hpre : (p :: ps).isPrefixOf (p :: ps) = true := by
        have h := isPrefixOf_append_self (p :: ps) []
        rwa [List.append_nil] at h
      simp only [List.nil_append, replaceAll, replGo, ne_eq, reduceCtorEq,
        not_false_iff, true_and, hpre, if_pos, List.length_cons,
        Nat.add_sub_cancel]
      exact replGo_skip_all (p :: ps) [] ps ps.length le_rfl
  | a :: c, hocc => by
    have h0 : pat.isPrefixOf (a :: (c ++ pat)) = false := by
      simpa using hocc 0 (by simp)
    have hrec := replaceAll_no_overlap pat hp c
      (fun i hi => by simpa using hocc (i + 1) (by simpa using hi))
    unfold replaceAll at hrec ⊢
    rw [List.cons_append, replGo, if_neg, hrec]
    intro hand
    rw [hand.2] at h0
    simp at h0
end STR

namespace Router

open STR

theorem parseKey_srcKey (u s last : Str) (hu : '/' ∉ u) (hs : '/' ∉ s)
    (hl : '/' ∉ last) :
    parseKey (srcKey u s last) = some (u, s, replaceAll ".webm".data [] last) := by
  have hpre : "users/".data.isPrefixOf (srcKey u s last) = true := by
    unfold srcKey
    exact isPrefixOf_append_self _ _
  have hcont : containsSub "/audio/sessions/".data (srcKey u s last) = true := by
    unfold srcKey
    exact containsSub_middle ("users/".data ++ u) "/audio/sessions/".data
      (s ++ ("/".data ++ last))
  have hsplit : splitOnChar '/' (srcKey u s last)
      = ["users".data, u, "audio".data, "sessions".data, s, last] := by
    have e : srcKey u s last
        = "users".data ++ '/' :: (u ++ '/' :: ("audio".data ++ '/' ::
            ("sessions".data ++ '/' :: (s ++ '/' :: last)))) := by
      unfold srcKey
      rfl
    rw [e,
      splitOnChar_append_cons '/' ("users".data) _ (by decide),
      splitOnChar_append_cons '/' u _ hu,
      splitOnChar_append_cons '/' ("audio".data) _ (by decide),
      splitOnChar_append_cons '/' ("sessions".data) _ (by decide),
      splitOnChar_append_cons '/' s _ hs,
      splitOnChar_no_sep '/' last hl]
  unfold parseKey
  rw [hpre, hcont]
  simp only [Bool.and_self, if_true]
  rw [hsplit]
  simp [List.getD, List.getLastD]

end Router

namespace Router

open STR

/-- C5 counterexample: the claim says parsing strips the extension from
the chunk file name for any extension, but the source only removes the
substring .webm, so a key with extension .mp3 parses to a chunk name that
still carries the extension. -/
theorem c5_counterexample :
    "users/u1/audio/sessions/s1/chunk-001.mp3".data
        = srcKey "u1".data "s1".data "chunk-001.mp3".data ∧
    parseKey "users/u1/audio/sessions/s1/chunk-001.mp3".data
        = some ("u1".data, "s1".data, "chunk-001.mp3".data) ∧
    "chunk-001.mp3".data ≠ "chunk-001".data := by
  decide

/-- C5, amended: for every source key of the shape
users/u/audio/sessions/s/c.webm whose pieces contain no slash and whose
chunk name produces no stray occurrence of .webm before the final
extension, parsing derives the triple of user id, session id and chunk
name without the extension, and the triple builds exactly the documented
canonical output path users/userId/transcripts/sessionId-chunkName.json.
For extensions other than .webm the derived chunk name keeps its
extension, as the counterexample shows, because the source removes only
the substring .webm. -/
theorem c5_parse_roundtrip (u s c : Str) (hu : '/' ∉ u) (hs : '/' ∉ s)
    (hc : '/' ∉ c)
    (hocc : ∀ i, i < c.length →
      (".webm".data.isPrefixOf ((c ++ ".webm".data).drop i)) = false) :
    parseKey (srcKey u s (c ++ ".webm".data)) = some (u, s, c) ∧
    transcriptKey u s c = canonicalOutputPath u s c := by
  constructor
  · have hl : '/' ∉ c ++ ".webm".data := by
      intro hm
      rcases List.mem_append.mp hm with h | h
      · exact hc h
      · revert h
        decide
    rw [parseKey_srcKey u s _ hu hs hl,
      replaceAll_no_overlap ".webm".data (by decide) c hocc]
  · rfl

/-- C5 witness: the amended round-trip theorem applied at the concrete key
users/u1/audio/sessions/s1/chunk-001.webm. -/
theorem c5_witness :
    parseKey (srcKey "u1".data "s1".data ("chunk-001".data ++ ".webm".data))
        = some ("u1".data, "s1".data, "chunk-001".data) ∧
    transcriptKey "u1".data "s1".data "chunk-001".data
        = canonicalOutputPath "u1".data "s1".data "chunk-001".data :=
  c5_parse_roundtrip "u1".data "s1".data "chunk-001".data
    (by decide) (by decide) (by decide) (by decide)

end Router

namespace Combiner

open STR

theorem foldl_processTranscript_offset :
    ∀ (ts : List Transcript) (acc : CombineAcc),
      (ts.foldl processTranscript acc).offset
        = ts.foldl (fun a t =>
            match t.chunks with
            | none => a
            | some subs => a + chunk_advance subs) acc.offset
  | [], _ => rfl
  | t :: ts, acc => by
    rw [List.foldl_cons, List.foldl_cons,
      foldl_processTranscript_offset ts (processTranscript acc t)]
    have hstep : (processTranscript acc t).offset
        = match t.chunks with
          | none => acc.offset
          | some subs => acc.offset + chunk_advance subs := by
      cases ht : t.chunks with
      | none => simp [processTranscript, ht]
      | some subs => simp [processTranscript, ht]
    rw [hstep]

/-- C4: the combiner shifts each sub-chunk timestamp pair by the running
time offset, advances the offset by the chunk transcripts own last
sub-chunk end timestamp when present and by the fixed fallback five
seconds otherwise, and reports the final offset as the duration. First
conjunct: on the two-chunk example, chunk zero with one sub-chunk zero to
two and text hello world, chunk one with one sub-chunk zero to three and
text foo, the combined text is hello world foo, the second sub-chunk is
shifted to two to five, the duration is five and the word count three.
Second conjunct: for every input list, the reported duration equals the
fold of the per-transcript advances, starting from zero, where transcripts
without a chunks key advance nothing. -/
theorem c4_combiner_example_and_duration :
    ((combine_transcripts
        [⟨"hello world".data, some [⟨some [0, 2], "hello world".data⟩], none, none, none⟩,
         ⟨"foo".data, some [⟨some [0, 3], "foo".data⟩], none, none, none⟩]).map
      (fun c => (c.text, c.chunks, c.metadata.duration, c.metadata.wordCount)))
      = some ("hello world foo".data,
          [⟨[0, 2], "hello world".data⟩, ⟨[2, 5], "foo".data⟩], 5, 3) ∧
    (∀ ts : List Transcript,
      (combine_transcripts ts).map (fun c => c.metadata.duration)
        = match ts with
          | [] => none
          | _ :: _ => some (ts.foldl (fun a t =>
              match t.chunks with
              | none => a
              | some subs => a + chunk_advance subs) 0)) := by
  constructor
  · simp +decide [combine_transcripts, processTranscript, chunk_advance, mkPara,
      pyStrip, pySplitWs, splitOnP, List.enum, List.enumFrom]
    norm_num
  · intro ts
    match ts with
    | [] => rfl
    | t :: ts =>
      show some ((t :: ts).foldl processTranscript ⟨[], [], [], 0⟩).offset = _
      rw [foldl_processTranscript_offset (t :: ts) ⟨[], [], [], 0⟩]

end Combiner

namespace Combiner

open STR

theorem find_map_num (l1 l2 : List Str) :
    ((l1.filterMap (fun k => (matchChunkNum k).map (ChunkFile.mk k))
        ++ l2.filterMap (fun k => (matchChunkNum k).map (ChunkFile.mk k))).map
          (fun cf => cf.chunk_number))
      = (l1 ++ l2).filterMap matchChunkNum := by
  have hfun : ∀ (k : Str),
      ((matchChunkNum k).map (ChunkFile.mk k)).map
          (fun cf : ChunkFile => cf.chunk_number)
        = matchChunkNum k := by
    intro k
    cases matchChunkNum k <;> rfl
  simp [List.map_filterMap, List.filterMap_append, hfun]

/-- C7 counterexample: the claim requires strictly increasing chunk
numbers in every combination, but the same chunk index can be discovered
under both listed directories, in which case the sorted sequence of
numbers repeats an index and the combination still consumes both. -/
theorem c7_counterexample :
    ¬ List.Sorted (fun a b => a < b)
        ((find_chunk_transcripts ["users/u/transcripts/s-chunk-0.json".data]
            ["users/u/transcriptions/s-chunk-0.json".data]).map
          (fun cf => cf.chunk_number)) ∧
    (Router.trigger_session_combination
        ⟨some 1,
         [("users/u/transcripts/s-chunk-0.json".data,
           ⟨"a".data, some [], none, none, none⟩)],
         [("users/u/transcriptions/s-chunk-0.json".data,
           ⟨"b".data, some [], none, none, none⟩)],
         none⟩).1 = true := by
  constructor
  · decide
  · decide

/-- C7, amended: the discovered chunk transcripts are consumed in
non-decreasing order of the numeric chunk index captured from the object
key, the consumed sequence of indices is a permutation of the indices
matched in the two listings, and when the matched indices are pairwise
distinct the order is strictly increasing regardless of discovery order. -/
theorem c7_sorted_by_chunk_number :
    ∀ (l1 l2 : List Str),
      List.Sorted (fun a b => a ≤ b)
        ((find_chunk_transcripts l1 l2).map (fun cf => cf.chunk_number)) ∧
      ((find_chunk_transcripts l1 l2).map (fun cf => cf.chunk_number)).Perm
        ((l1 ++ l2).filterMap matchChunkNum) ∧
      (((l1 ++ l2).filterMap matchChunkNum).Nodup →
        List.Sorted (fun a b => a < b)
          ((find_chunk_transcripts l1 l2).map (fun cf => cf.chunk_number))) := by
  intro l1 l2
  have hsort : List.Sorted chunkLE (find_chunk_transcripts l1 l2) :=
    List.sorted_insertionSort chunkLE _
  have hmap : List.Sorted (fun a b => a ≤ b)
      ((find_chunk_transcripts l1 l2).map (fun cf => cf.chunk_number)) :=
    List.Pairwise.map (fun cf : ChunkFile => cf.chunk_number)
      (fun _ _ h => h) hsort
  have hperm : ((find_chunk_transcripts l1 l2).map (fun cf => cf.chunk_number)).Perm
      ((l1 ++ l2).filterMap matchChunkNum) := by
    have h1 := (List.perm_insertionSort chunkLE
      (l1.filterMap (fun k => (matchChunkNum k).map (ChunkFile.mk k))
        ++ l2.filterMap (fun k => (matchChunkNum k).map (ChunkFile.mk k)))).map
      (fun cf => cf.chunk_number)
    rw [find_map_num] at h1
    exact h1
  refine ⟨hmap, hperm, fun hnd => ?_⟩
  exact List.Sorted.lt_of_le hmap (hperm.nodup_iff.mpr hnd)

/-- C7 witness: on listings with the distinct chunk indices one and zero,
discovered in decreasing order, the consumed indices are strictly
increasing. -/
theorem c7_witness :
    List.Sorted (fun a b => a < b)
      ((find_chunk_transcripts ["users/u/transcripts/s-chunk-1.json".data,
          "users/u/transcripts/s-chunk-0.json".data] []).map
        (fun cf => cf.chunk_number)) :=
  (c7_sorted_by_chunk_number ["users/u/transcripts/s-chunk-1.json".data,
      "users/u/transcripts/s-chunk-0.json".data] []).2.2 (by decide)

end Combiner

namespace Router

open STR Combiner

/-- C1 counterexample: on a store where the session is complete and the
session transcript is absent, the completion check combines and writes;
but the write is a plain unconditional put, so a second writer that
already passed the existence check also succeeds against the store that
now holds the session transcript, and the put reports success even though
the object exists. The claim that the write fails when the object already
exists, so that two concurrent checks cannot both succeed in writing, is
therefore false of the code. -/
theorem c1_counterexample :
    (check_session_completion
        ⟨some 1,
         [("users/u/transcripts/s-chunk-0.json".data,
           ⟨"a".data, some [], none, none, none⟩)], [], none⟩).1 = true ∧
    ((check_session_completion
        ⟨some 1,
         [("users/u/transcripts/s-chunk-0.json".data,
           ⟨"a".data, some [], none, none, none⟩)], [], none⟩).2.sessionTranscript).isSome
      = true ∧
    (trigger_session_combination
        (check_session_completion
          ⟨some 1,
           [("users/u/transcripts/s-chunk-0.json".data,
             ⟨"a".data, some [], none, none, none⟩)], [], none⟩).2).1 = true ∧
    (put_session_transcript
        (check_session_completion
          ⟨some 1,
           [("users/u/transcripts/s-chunk-0.json".data,
             ⟨"a".data, some [], none, none, none⟩)], [], none⟩).2
        ⟨[], [], [], ⟨0, 0, 0⟩, [], [], []⟩).1 = true := by
  refine ⟨by decide, by decide, by decide, rfl⟩

/-- C1, amended: the completion detector does return false, with the
store unchanged, whenever the session-level transcript object already
exists, whatever the metadata and listings say; but the write that
persists the combined transcript is an unconditional put that always
reports success and overwrites the session-level object, including when
that object already exists, so of two concurrent completion checks that
both observe the session as complete both writers succeed and the last
one wins. -/
theorem c1_at_most_once :
    ∀ (m : Option Nat) (l1 l2 : List (Str × Transcript)) (c c2 : Combined),
      check_session_completion ⟨m, l1, l2, some c⟩ = (false, ⟨m, l1, l2, some c⟩) ∧
      put_session_transcript ⟨m, l1, l2, some c⟩ c2 = (true, ⟨m, l1, l2, some c2⟩) := by
  intro m l1 l2 c c2
  constructor
  · match m with
    | none => rfl
    | some expected =>
      by_cases h0 : expected = 0
      · simp [check_session_completion, h0]
      · by_cases h1 : expected ≤ l1.length
        · simp [check_session_completion, h0, h1]
        · simp [check_session_completion, h0, h1]
  · rfl

/-- C6: the completion check returns false, leaving the store unchanged,
whenever the session metadata object is absent or its expected chunk
count is zero, whatever per-chunk transcript objects exist under either
listing prefix and whether or not a session transcript exists; the case
is an ordinary false return, not an error. -/
theorem c6_no_metadata_not_complete :
    ∀ (l1 l2 : List (Str × Transcript)) (sObj : Option Combined),
      check_session_completion ⟨none, l1, l2, sObj⟩ = (false, ⟨none, l1, l2, sObj⟩) ∧
      check_session_completion ⟨some 0, l1, l2, sObj⟩ = (false, ⟨some 0, l1, l2, sObj⟩) := by
  intro l1 l2 sObj
  exact ⟨rfl, by simp [check_session_completion]⟩

end Router

namespace Router

open STR

/-- Expected delay list of a run in which every attempt fails, starting
at a given attempt index: one delay per remaining retry. -/
def dlist (dly : Nat → ℚ) : Nat → Nat → List ℚ
  | _, 0 => []
  | a, r + 1 => dly a :: dlist dly (a + 1) r

theorem dlist_eq_range_map (dly : Nat → ℚ) :
    ∀ (r a : Nat), dlist dly a r = (List.range r).map (fun i => dly (a + i))
  | 0, _ => rfl
  | r + 1, a => by
    rw [dlist, dlist_eq_range_map dly r (a + 1), List.range_succ_eq_map,
      List.map_cons, List.map_map]
    have hc : ((fun i => dly (a + i)) ∘ Nat.succ) = fun i => dly (a + 1 + i) := by
      funext i
      exact congrArg dly (by omega)
    rw [hc]
    simp

theorem retryFrom_allFail {E T : Type} (f : Nat → Except E T) (e : Nat → E)
    (hf : ∀ n, f n = .error (e n)) (b m : ℚ) (j : Bool) (u : Nat → ℚ) :
    ∀ (r a : Nat),
      retryFrom f b m j u a r =
        ⟨r + 1,
         dlist (fun n =>
           if j then min (b * 2 ^ n) m * (1/2 + u n * (1/2))
           else min (b * 2 ^ n) m) a r,
         .error (e (a + r))⟩
  | 0, a => by simp [retryFrom, hf a, dlist]
  | r + 1, a => by
    rw [retryFrom, hf a]
    simp only [dlist]
    rw [retryFrom_allFail f e hf b m j u r (a + 1)]
    have harith : a + 1 + r = a + (r + 1) := by omega
    rw [harith]

end Router

namespace Router

open STR

/-- C2: when every attempt fails, the retry executor invokes the
operation exactly max_retries + 1 times, sleeps after failed zero-indexed
attempt n exactly min of base_delay times two to the n and max_delay,
scaled by a factor between one half and one inclusive when jitter is on
and the random samples lie in the unit interval; and with three retries,
base delay one, max delay eight and jitter off, the delays are exactly
one, two and four seconds and after the fourth failed attempt the last
observed error is raised with no further delay. -/
theorem c2_backoff_executor :
    (∀ (E T : Type) (f : Nat → Except E T) (e : Nat → E),
      (∀ n, f n = .error (e n)) →
      ∀ (mr : Nat) (b m : ℚ) (j : Bool) (u : Nat → ℚ),
        (retry_with_exponential_backoff f mr b m j u).invocations = mr + 1 ∧
        (retry_with_exponential_backoff f mr b m j u).outcome = .error (e mr) ∧
        (retry_with_exponential_backoff f mr b m j u).delays.length = mr ∧
        (j = false →
          (retry_with_exponential_backoff f mr b m j u).delays
            = (List.range mr).map (fun n => min (b * 2 ^ n) m)) ∧
        ((∀ n, 0 ≤ u n ∧ u n < 1) → j = true → ∀ n, n < mr →
          ∃ rf : ℚ, 1/2 ≤ rf ∧ rf ≤ 1 ∧
            (retry_with_exponential_backoff f mr b m j u).delays[n]?
              = some (min (b * 2 ^ n) m * rf))) ∧
    (∀ (f : Nat → Except Nat Unit), (∀ n, f n = .error n) → ∀ (u : Nat → ℚ),
      retry_with_exponential_backoff f 3 1 8 false u
        = ⟨4, [1, 2, 4], .error 3⟩) := by
  constructor
  · intro E T f e hf mr b m j u
    have h := retryFrom_allFail f e hf b m j u mr 0
    unfold retry_with_exponential_backoff
    rw [h, dlist_eq_range_map]
    simp only [Nat.zero_add]
    refine ⟨by simp, by simp, by simp, fun hj => by simp [hj], ?_⟩
    intro hu hj n hn
    refine ⟨1/2 + u n * (1/2), ?_, ?_, ?_⟩
    · have := (hu n).1
      nlinarith
    · have := (hu n).2
      nlinarith
    · simp [hj, List.getElem?_map, List.getElem?_range, hn]
  · intro f hf u
    have h := retryFrom_allFail f (fun n => n) hf 1 8 false u 3 0
    unfold retry_with_exponential_backoff
    rw [h]
    simp only [dlist, if_false]
    norm_num

/-- C2 witness: the executor run at the concrete all-failing operation,
with the router parameters and jitter off, makes four invocations with
delays one, two, four and raises the last error; and with jitter on it
still makes four invocations. -/
theorem c2_witness :
    retry_with_exponential_backoff (fun n => (.error n : Except Nat Unit)) 3 1 8 false
        (fun _ => 0) = ⟨4, [1, 2, 4], .error 3⟩ ∧
    (retry_with_exponential_backoff (fun n => (.error n : Except Nat Unit)) 3 1 8 true
        (fun _ => 0)).invocations = 4 :=
  ⟨c2_backoff_executor.2 (fun n => .error n) (fun _ => rfl) (fun _ => 0),
   (c2_backoff_executor.1 Nat Unit (fun n => .error n) (fun n => n) (fun _ => rfl)
      3 1 8 true (fun _ => 0)).1⟩

end Router

namespace Router

open STR

theorem retry_invocations_pos {E T : Type} (f : Nat → Except E T) (b m : ℚ)
    (j : Bool) (u : Nat → ℚ) (mr : Nat) :
    1 ≤ (retry_with_exponential_backoff f mr b m j u).invocations := by
  unfold retry_with_exponential_backoff
  match mr with
  | 0 => cases hfa : f 0 <;> simp [retryFrom, hfa]
  | r + 1 => cases hfa : f 0 <;> simp [retryFrom, hfa]

/-- C3: when the extracted source key parses to nonempty user, session
and chunk name components, so that the truthiness guard of the source
holds, and the store already holds an object at the canonical output key,
the router returns the skipped outcome with zero direct calls and leaves
the session store untouched; since nothing is written, routing the same
request a second time against the same store view, under any world,
returns skipped again with no direct call. The nonemptiness hypotheses
formalise the requests whose source path parses in the sense of the
source: an empty derived component is falsy in Python and takes the
fallback branch instead. -/
theorem c3_idempotent_skip :
    ∀ (E T : Type) (w : World E T) (sess : SessStore) (headView : Str → HeadResult)
      (e : EventData) (b k u s c : Str),
      extract_s3 e = (some b, some k) →
      parseKey k = some (u, s, c) →
      u ≠ [] → s ≠ [] → c ≠ [] →
      headView (transcriptKey u s c) = .found →
      send_to_fastapi w sess headView e = .ok ⟨.skipped, 0, none, none, sess⟩ ∧
      (∀ (w2 : World E T),
        send_to_fastapi w2 sess headView e = .ok ⟨.skipped, 0, none, none, sess⟩) := by
  intro E T w sess headView e b k u s c h1 h2 hu hs hc h3
  constructor
  · simp [send_to_fastapi, h1, h2, hu, hs, hc, h3]
  · intro w2
    simp [send_to_fastapi, h1, h2, hu, hs, hc, h3]

/-- C3 witness: the skip theorem applied at a concrete request whose
output object exists in the store. -/
theorem c3_witness :
    send_to_fastapi (⟨fun n => (.error n : Except Nat Unit), fun _ => 0, "T".data⟩ : World Nat Unit)
        ⟨none, [], [], none⟩
        (fun key => if key = transcriptKey "u1".data "s1".data "chunk-001".data
          then .found else .noSuchKey)
        ⟨some "b".data, some "users/u1/audio/sessions/s1/chunk-001.webm".data,
          none, none, false⟩
      = .ok ⟨.skipped, 0, none, none, ⟨none, [], [], none⟩⟩ :=
  (c3_idempotent_skip Nat Unit
    ⟨fun n => (.error n : Except Nat Unit), fun _ => 0, "T".data⟩
    ⟨none, [], [], none⟩
    (fun key => if key = transcriptKey "u1".data "s1".data "chunk-001".data
      then .found else .noSuchKey)
    ⟨some "b".data, some "users/u1/audio/sessions/s1/chunk-001.webm".data,
      none, none, false⟩
    "b".data "users/u1/audio/sessions/s1/chunk-001.webm".data
    "u1".data "s1".data "chunk-001".data rfl (by decide)
    (by decide) (by decide) (by decide) (by decide)).1

/-- C9: whenever force batch is set, or discovery returns no endpoint, or
the health check of the discovered endpoint does not report healthy, the
handler enqueues the request to the batch queue, an outcome with zero
direct transcription calls. -/
theorem c9_unavailable_goes_to_queue :
    ∀ (E T : Type) (w : World E T) (discovered : Option Str) (health : Str → Bool)
      (sess : SessStore) (headView : Str → HeadResult) (event : LambdaEvent),
      (eventData event).force_batch = true ∨ discovered = none ∨
        check_server_health health discovered = false →
      lambda_handler w discovered health sess headView event
          = .routed (send_to_sqs w.now sess (eventData event)) ∧
      (send_to_sqs w.now sess (eventData event)).directCalls = 0 ∧
      (send_to_sqs w.now sess (eventData event)).method = .sqs := by
  intro E T w discovered health sess headView event h
  refine ⟨?_, rfl, rfl⟩
  rcases h with h | h | h
  · simp [lambda_handler, h]
  · subst h
    by_cases hfb : (eventData event).force_batch <;>
      simp [lambda_handler, hfb, check_server_health]
  · by_cases hfb : (eventData event).force_batch <;>
      simp [lambda_handler, hfb, h]

/-- C9 witness: the handler at a concrete event with no discovered
server routes to the queue. -/
theorem c9_witness :
    lambda_handler (⟨fun n => (.error n : Except Nat Unit), fun _ => 0, "T".data⟩ : World Nat Unit)
        none (fun _ => true) ⟨none, [], [], none⟩ (fun _ => .noSuchKey)
        (.plain ⟨some "b".data, some "k".data, none, none, false⟩)
      = .routed (send_to_sqs "T".data ⟨none, [], [], none⟩
          ⟨some "b".data, some "k".data, none, none, false⟩) :=
  (c9_unavailable_goes_to_queue Nat Unit
    ⟨fun n => (.error n : Except Nat Unit), fun _ => 0, "T".data⟩
    none (fun _ => true) ⟨none, [], [], none⟩ (fun _ => .noSuchKey)
    (.plain ⟨some "b".data, some "k".data, none, none, false⟩)
    (Or.inr (Or.inl rfl))).1

/-- C10: when the idempotency probe at the canonical output key fails
with a storage error other than the object being absent, the router
neither skips nor fails the request: it proceeds and makes at least one
direct transcription call. -/
theorem c10_head_error_proceeds :
    ∀ (E T : Type) (w : World E T) (sess : SessStore) (headView : Str → HeadResult)
      (e : EventData) (b k u s c : Str),
      extract_s3 e = (some b, some k) →
      parseKey k = some (u, s, c) →
      headView (transcriptKey u s c) = .otherError →
      ∃ r : RouteResult, send_to_fastapi w sess headView e = .ok r ∧
        r.method ≠ .skipped ∧ 1 ≤ r.directCalls := by
  intro E T w sess headView e b k u s c h1 h2 h3
  have hpos := retry_invocations_pos w.fastapi 1 8 true w.rand 3
  cases ho : (retry_with_exponential_backoff w.fastapi 3 1 8 true w.rand).outcome with
  | ok t =>
    refine ⟨⟨.directWithRetry,
      (retry_with_exponential_backoff w.fastapi 3 1 8 true w.rand).invocations,
      none, none,
      if u ≠ [] ∧ s ≠ [] then (check_session_completion sess).2 else sess⟩,
      ?_, by simp, hpos⟩
    by_cases hg : (u ≠ [] ∧ s ≠ [] ∧ c ≠ [])
    · simp [send_to_fastapi, h1, h2, h3, ho, hg, hg.1, hg.2.1]
    · simp [send_to_fastapi, h1, h2, h3, ho, hg]
  | error err =>
    refine ⟨⟨.sqs,
      (retry_with_exponential_backoff w.fastapi 3 1 8 true w.rand).invocations,
      some ⟨normalize_event e, w.now, "batch".data⟩,
      some (e.event_type.getD "audio_upload".data), sess⟩, ?_, by simp, hpos⟩
    by_cases hg : (u ≠ [] ∧ s ≠ [] ∧ c ≠ []) <;>
      simp [send_to_fastapi, send_to_sqs, h1, h2, h3, ho, hg]

/-- C10 witness: the proceed theorem applied at a concrete request whose
existence probe reports a storage error, with a world whose first direct
attempt succeeds. -/
theorem c10_witness :
    ∃ r : RouteResult,
      send_to_fastapi (⟨fun _ => (.ok () : Except Nat Unit), fun _ => 0, "T".data⟩ : World Nat Unit)
          ⟨none, [], [], none⟩ (fun _ => .otherError)
          ⟨some "b".data, some "users/u1/audio/sessions/s1/chunk-001.webm".data,
            none, none, false⟩
        = .ok r ∧ r.method ≠ .skipped ∧ 1 ≤ r.directCalls :=
  c10_head_error_proceeds Nat Unit
    ⟨fun _ => (.ok () : Except Nat Unit), fun _ => 0, "T".data⟩
    ⟨none, [], [], none⟩ (fun _ => .otherError)
    ⟨some "b".data, some "users/u1/audio/sessions/s1/chunk-001.webm".data,
      none, none, false⟩
    "b".data "users/u1/audio/sessions/s1/chunk-001.webm".data
    "u1".data "s1".data "chunk-001".data rfl (by decide) rfl

end Router

namespace Router

open STR

/-- C8 counterexample: the claim says the queue message body is exactly
the original request JSON plus the queued-at timestamp and the batch
processing type; but for a request in the s3Location format the enqueue
normalisation also inserts top-level s3_bucket and s3_key fields copied
out of the location, so the body payload differs from the original
request. -/
theorem c8_counterexample :
    send_to_fastapi
        (⟨fun n => (.error n : Except Nat Unit), fun _ => 0, "T".data⟩ : World Nat Unit)
        ⟨none, [], [], none⟩ (fun _ => .noSuchKey)
        ⟨none, none, some ⟨some "b".data, some "k".data⟩, none, false⟩
      = .ok ⟨.sqs, 4,
          some ⟨⟨some "b".data, some "k".data,
              some ⟨some "b".data, some "k".data⟩, none, false⟩,
            "T".data, "batch".data⟩,
          some "audio_upload".data, ⟨none, [], [], none⟩⟩ ∧
    (⟨some "b".data, some "k".data, some ⟨some "b".data, some "k".data⟩,
        none, false⟩ : EventData)
      ≠ ⟨none, none, some ⟨some "b".data, some "k".data⟩, none, false⟩ := by
  refine ⟨by decide, by decide⟩

/-- C8, amended: when the direct call fails on every attempt, the router
falls back to the queue with the original request payload, not the
transformed transcription request: the message body is the original
payload, with the top-level s3_bucket and s3_key fields filled in from
s3Location when the original carried the location format and no
s3_bucket, plus the queued-at timestamp and the batch processing type,
and the event type attribute defaults to audio_upload; whenever the
original payload already has s3_bucket, or has no s3Location, the body
payload is exactly the original request. -/
theorem c8_fallback_original_payload :
    ∀ (E T : Type) (w : World E T) (e : Nat → E),
      (∀ n, w.fastapi n = .error (e n)) →
      ∀ (sess : SessStore) (headView : Str → HeadResult) (ev : EventData) (b k : Str),
        extract_s3 ev = (some b, some k) →
        (parseKey k = none ∨
          (∃ u s c, parseKey k = some (u, s, c) ∧
            headView (transcriptKey u s c) ≠ .found)) →
        send_to_fastapi w sess headView ev
            = .ok ⟨.sqs, 4, some ⟨normalize_event ev, w.now, "batch".data⟩,
                some (ev.event_type.getD "audio_upload".data), sess⟩ ∧
        (ev.s3_bucket.isSome = true ∨ ev.s3Location = none →
          normalize_event ev = ev) := by
  intro E T w e hf sess headView ev b k h1 h2
  have htr := retryFrom_allFail w.fastapi e hf 1 8 true w.rand 3 0
  constructor
  · rcases h2 with hpk | ⟨u, s, c, hpk, hh⟩
    · simp [send_to_fastapi, send_to_sqs, h1, hpk, retry_with_exponential_backoff, htr]
    · cases hhv : headView (transcriptKey u s c) with
      | found => exact absurd hhv hh
      | noSuchKey =>
        simp [send_to_fastapi, send_to_sqs, h1, hpk, hhv,
          retry_with_exponential_backoff, htr]
      | otherError =>
        by_cases hg : (u ≠ [] ∧ s ≠ [] ∧ c ≠ []) <;>
          simp [send_to_fastapi, send_to_sqs, h1, hpk, hhv,
            retry_with_exponential_backoff, htr, hg]
  · intro h
    rcases h with h | h
    · cases hb : ev.s3_bucket with
      | none => rw [hb] at h; simp at h
      | some bv => cases hl : ev.s3Location <;> simp [normalize_event, hb, hl]
    · cases hb : ev.s3_bucket <;> simp [normalize_event, hb, h]

/-- C8 witness: the fallback theorem applied at a concrete all-failing
world and a request that already carries s3_bucket, in which case the
queued payload is exactly the original request. -/
theorem c8_witness :
    send_to_fastapi
        (⟨fun n => (.error n : Except Nat Unit), fun _ => 0, "T".data⟩ : World Nat Unit)
        ⟨none, [], [], none⟩ (fun _ => .noSuchKey)
        ⟨some "b".data, some "k".data, none, none, false⟩
      = .ok ⟨.sqs, 4,
          some ⟨normalize_event ⟨some "b".data, some "k".data, none, none, false⟩,
            "T".data, "batch".data⟩,
          some "audio_upload".data, ⟨none, [], [], none⟩⟩ ∧
    normalize_event ⟨some "b".data, some "k".data, none, none, false⟩
      = ⟨some "b".data, some "k".data, none, none, false⟩ := by
  have h := c8_fallback_original_payload Nat Unit
    ⟨fun n => (.error n : Except Nat Unit), fun _ => 0, "T".data⟩
    (fun n => n) (fun _ => rfl)
    ⟨none, [], [], none⟩ (fun _ => .noSuchKey)
    ⟨some "b".data, some "k".data, none, none, false⟩
    "b".data "k".data rfl (Or.inl (by decide))
  exact ⟨h.1, h.2 (Or.inl rfl)⟩

end Router
